import Mathlib

/-!
Shallow embedding of the dc-template-linter validation engine
(github.com/Domain-Connect/dc-template-linter) in Lean 4, together with
theorems settling the frozen claims C1..C10 about its specification.

The embedding follows the most recent snapshot of the Go sources:
`exitvals` severity constants, `internal` Template/Record structures with
`type SINT string`, `libdctlint` record/template checks.  Go strings are
modelled as Lean `String`/`List Char` (the checks compared here only test
ASCII characters, where Go's byte-wise and Lean's char-wise views agree,
and any byte/char divergence is noted at the definition it concerns).
Go `uint8` severity values are modelled as `Nat`: every severity the code
builds is an `|||` (bitwise or) of the six constants below, hence < 32,
so no 8-bit wraparound can occur.
-/

/-! ## Severity values (exitvals/exitvals.go) -/

/-- Severity of a template check, `exitvals.CheckSeverity` (a `uint8`
bit-flag value in the source). -/
abbrev CheckSeverity := Nat

def CheckOK : CheckSeverity := 0
def CheckDebug : CheckSeverity := 1
def CheckInfo : CheckSeverity := 2
def CheckWarn : CheckSeverity := 4
def CheckError : CheckSeverity := 8
def CheckFatal : CheckSeverity := 16

/-- The six severity constants, in the spec's order
OK < Debug < Info < Warn < Error < Fatal.  The numeric encodings
0,1,2,4,8,16 are strictly increasing along this order, so the maximum
under the spec's order of two constants is their `Nat` maximum. -/
def severityValues : List CheckSeverity :=
  [CheckOK, CheckDebug, CheckInfo, CheckWarn, CheckError, CheckFatal]

/-- The combination operation the validators use everywhere:
`exitVal |= x`, i.e. bitwise or. -/
def combine (a b : CheckSeverity) : CheckSeverity := a ||| b

/-- Reporting level of an accumulated severity value: 0 for OK, otherwise
one plus the index of its most significant set bit (written as a
threshold ladder, which agrees with the bit index for all values < 32,
i.e. for every or-combination of the six constants).  On the constants
this gives OK ↦ 0, Debug ↦ 1, Info ↦ 2, Warn ↦ 3, Error ↦ 4, Fatal ↦ 5,
and on an or-combination it names the most severe finding present. -/
def sevLevel (s : CheckSeverity) : Nat :=
  if 16 ≤ s then 5 else if 8 ≤ s then 4 else if 4 ≤ s then 3
  else if 2 ≤ s then 2 else if 1 ≤ s then 1 else 0

/-- A severity value `s` contains the finding-bit of the constant `b`. -/
def hasSev (s b : CheckSeverity) : Prop := s &&& b = b

instance (s b : CheckSeverity) : Decidable (hasSev s b) := by
  unfold hasSev; infer_instance

/-- C1. The claim states that bitwise or of `CheckSeverity` values equals
max under the ordering OK < Debug < Info < Warn < Error < Fatal.  It is
false: `CheckDebug ||| CheckInfo = 3`, which is not `CheckInfo = 2`, the
maximum of the two (the encodings are monotone in the ordering, so max
under the ordering is `Nat.max` on them). -/
theorem c1_or_is_not_max :
    CheckDebug ∈ severityValues ∧ CheckInfo ∈ severityValues ∧
    combine CheckDebug CheckInfo ≠ max CheckDebug CheckInfo := by
  decide

/-- C1 (amended). For severities drawn from the six constants, the
or-combination is not literally `max(a, b)`: instead its reporting level
(most significant set bit) is the level of `max(a, b)`, and
`combine a b = max a b` holds exactly when the operands are equal or one
of them is `CheckOK`. -/
theorem c1_combine_level (a b : CheckSeverity)
    (ha : a ∈ severityValues) (hb : b ∈ severityValues) :
    sevLevel (combine a b) = max (sevLevel a) (sevLevel b) ∧
    (combine a b = max a b ↔ a = b ∨ a = CheckOK ∨ b = CheckOK) := by
  fin_cases ha <;> fin_cases hb <;> decide

/-- C1 witness: the amended statement applied at Warn, Error. -/
theorem c1_combine_level_witness :
    sevLevel (combine CheckWarn CheckError)
      = max (sevLevel CheckWarn) (sevLevel CheckError) ∧
    (combine CheckWarn CheckError = max CheckWarn CheckError ↔
      CheckWarn = CheckError ∨ CheckWarn = CheckOK ∨ CheckError = CheckOK) :=
  c1_combine_level CheckWarn CheckError (by decide) (by decide)

/-! ## Denied-character scan (templatevar.go `isDenied`) -/

/-- `allowedChars` from templatevar.go: in ascii smallest to greatest order. -/
def allowedChars : String :=
  "-0123456789ABCDEFGHIJKLMNOPQRSTUVWXYZ_abcdefghijklmnopqrstuvwxyz"

/-- Code points of `allowedChars` (Go indexes the string by byte; all 64
characters are ASCII, so byte and code point agree). -/
def allowedCodes : List Nat := allowedChars.data.map Char.toNat

/-- `rune(allowedChars[mid])` as an integer.  Out-of-range indices (never
reached from the entry state) default to 0. -/
def codeAt (i : Int) : Int := ((allowedCodes.getD i.toNat 0 : Nat) : Int)

/-- The binary-search loop of `isDenied`, with Go's int variables `start`,
`end`, `mid` as `Int` and Go's truncating division `/` as `Int.tdiv`.
The fuel argument only bounds the iteration count; 64 is enough because
the bracket `stop - start` strictly shrinks every iteration (the search
runs over a 64-byte string, so at most 7 comparisons happen). -/
def isDeniedGo (n : Nat) : Nat → Int → Int → Int → Bool
  | 0, _, _, _ => true
  | fuel+1, start, stop, mid =>
    if start ≤ stop then
      if codeAt mid = (n : Int) then false
      else if (n : Int) < codeAt mid then
        isDeniedGo n fuel start (mid - 1) (Int.tdiv (start + (mid - 1)) 2)
      else
        isDeniedGo n fuel (mid + 1) stop (Int.tdiv ((mid + 1) + stop) 2)
    else true

/-- `isDenied` from templatevar.go, entered with
`start = 0`, `end = len(allowedChars) - 1 = 63`,
`mid = len(allowedChars) / 2 = 32`. -/
def isDeniedNat (n : Nat) : Bool := isDeniedGo n 64 0 63 32

/-- `isDenied(needle rune) bool` — a Go rune is a Unicode code point,
i.e. a `Char`. -/
def isDenied (c : Char) : Bool := isDeniedNat c.toNat

lemma allowedCodes_getD_le (k : Nat) : allowedCodes.getD k 0 ≤ 122 := by
  have hmem : ∀ x ∈ allowedCodes, x ≤ 122 := by decide
  rw [List.getD_eq_getElem?_getD]
  rcases h : allowedCodes[k]? with _ | x
  · simp
  · have hk : k < allowedCodes.length := by
      by_contra hh
      rw [List.getElem?_eq_none (by omega)] at h
      cases h
    rw [List.getElem?_eq_getElem hk] at h
    cases h
    simpa using hmem _ (List.getElem_mem hk)

lemma tdiv_two_bounds (a b : Int) (ha : 0 ≤ a) (hab : a ≤ b) :
    a ≤ Int.tdiv (a + b) 2 ∧ Int.tdiv (a + b) 2 ≤ b := by
  obtain ⟨p, rfl⟩ := Int.eq_ofNat_of_zero_le ha
  obtain ⟨q, rfl⟩ := Int.eq_ofNat_of_zero_le (le_trans ha hab)
  have hpq : p ≤ q := by exact_mod_cast hab
  have h1 : Int.tdiv ((p : Int) + (q : Int)) 2 = ((p + q) / 2 : Nat) := by
    rw [← Nat.cast_add, Int.ofNat_tdiv]
    rfl
  rw [h1]
  constructor
  · exact_mod_cast Nat.le_div_iff_mul_le (by omega) |>.mpr (by omega)
  · have : (p + q) / 2 ≤ q := by omega
    exact_mod_cast this

/-- When the needle is larger than every table entry the search always
takes the right branch and ends without a hit. -/
lemma isDeniedGo_true_of_big (n : Nat) (hn : 123 ≤ n) :
    ∀ fuel : Nat, ∀ start stop mid : Int, 0 ≤ start →
      (start ≤ stop → start ≤ mid ∧ mid ≤ stop) →
      (stop + 1 - start).toNat ≤ fuel →
      isDeniedGo n fuel start stop mid = true := by
  intro fuel
  induction fuel with
  | zero => intro s e m _ _ _; rfl
  | succ fuel ih =>
    intro s e m hs hm hf
    show isDeniedGo n (fuel + 1) s e m = true
    rw [isDeniedGo]
    by_cases hse : s ≤ e
    · obtain ⟨hm1, hm2⟩ := hm hse
      have hcode : codeAt m < (n : Int) := by
        have := allowedCodes_getD_le m.toNat
        unfold codeAt
        omega
      rw [if_pos hse, if_neg (by omega), if_neg (by omega)]
      apply ih (m + 1) e _ (by omega) _ (by omega)
      intro h2
      exact tdiv_two_bounds (m + 1) e (by omega) h2
    · rw [if_neg hse]

lemma isDeniedNat_true_of_big (n : Nat) (hn : 123 ≤ n) : isDeniedNat n = true := by
  unfold isDeniedNat
  exact isDeniedGo_true_of_big n hn 64 0 63 32 (by omega) (by omega) (by norm_num)

lemma isDeniedNat_small :
    ∀ n, n < 123 → ((isDeniedNat n = false) ↔ n ∈ allowedCodes) := by decide

/-- C9. `isDenied` returns `false` exactly on the 64 characters of
`allowedChars`, i.e. `'-'`, `'0'`–`'9'`, `'A'`–`'Z'`, `'_'`,
`'a'`–`'z'`: the binary search is plain set membership. -/
theorem c9_isDenied_eq_membership (c : Char) :
    (isDenied c = false ↔ c ∈ allowedChars.data) ∧
    (c ∈ allowedChars.data ↔
      (c = '-' ∨ ('0' ≤ c ∧ c ≤ '9') ∨ ('A' ≤ c ∧ c ≤ 'Z') ∨ c = '_' ∨
       ('a' ≤ c ∧ c ≤ 'z'))) := by
  have hinj : ∀ a b : Char, a.toNat = b.toNat → a = b := by
    intro a b h
    exact Char.ext (UInt32.ext h)
  have hmemiff : c.toNat ∈ allowedCodes ↔ c ∈ allowedChars.data := by
    constructor
    · intro h
      obtain ⟨d, hd, hdc⟩ := List.mem_map.mp h
      exact hinj d c hdc ▸ hd
    · intro h
      exact List.mem_map.mpr ⟨c, h, rfl⟩
  have hcodes : ∀ n, n < 123 →
      (n ∈ allowedCodes ↔
        (n = 45 ∨ (48 ≤ n ∧ n ≤ 57) ∨ (65 ≤ n ∧ n ≤ 90) ∨ n = 95 ∨
         (97 ≤ n ∧ n ≤ 122))) := by decide
  have hle : ∀ a b : Char, a ≤ b ↔ a.toNat ≤ b.toNat := fun a b => Iff.rfl
  have hchar : (c = '-' ∨ ('0' ≤ c ∧ c ≤ '9') ∨ ('A' ≤ c ∧ c ≤ 'Z') ∨ c = '_' ∨
       ('a' ≤ c ∧ c ≤ 'z')) ↔
      (c.toNat = 45 ∨ (48 ≤ c.toNat ∧ c.toNat ≤ 57) ∨
       (65 ≤ c.toNat ∧ c.toNat ≤ 90) ∨ c.toNat = 95 ∨
       (97 ≤ c.toNat ∧ c.toNat ≤ 122)) := by
    constructor
    · rintro (rfl | ⟨h1, h2⟩ | ⟨h1, h2⟩ | rfl | ⟨h1, h2⟩) <;>
        simp_all [hle]
    · rintro (h | ⟨h1, h2⟩ | ⟨h1, h2⟩ | h | ⟨h1, h2⟩)
      · exact Or.inl (hinj c '-' h)
      · exact Or.inr (Or.inl ⟨(hle '0' c).mpr h1, (hle c '9').mpr h2⟩)
      · exact Or.inr (Or.inr (Or.inl ⟨(hle 'A' c).mpr h1, (hle c 'Z').mpr h2⟩))
      · exact Or.inr (Or.inr (Or.inr (Or.inl (hinj c '_' h))))
      · exact Or.inr (Or.inr (Or.inr (Or.inr
          ⟨(hle 'a' c).mpr h1, (hle c 'z').mpr h2⟩)))
  by_cases h : c.toNat < 123
  · refine ⟨?_, ?_⟩
    · rw [isDenied, isDeniedNat_small c.toNat h, hmemiff]
    · rw [← hmemiff, hcodes c.toNat h, hchar]
  · have hbig := isDeniedNat_true_of_big c.toNat (by omega)
    have hnm : ¬ c.toNat ∈ allowedCodes := by
      intro hmem
      have : ∀ x ∈ allowedCodes, x ≤ 122 := by decide
      have := this _ hmem
      omega
    refine ⟨?_, ?_⟩
    · rw [isDenied, hbig]
      simp only [Bool.true_eq_false, false_iff]
      rw [← hmemiff]
      exact hnm
    · rw [← hmemiff]
      constructor
      · intro hmem; exact absurd hmem hnm
      · intro hc
        exfalso
        have := (hchar.mp hc)
        omega

/-! ## Generic string helpers (Go strings package operations) -/

/-- `strings.Count(s, "%") > 1`, the placeholder test `isVariable` from
lib.go. -/
def isVariable (s : String) : Bool := 1 < s.data.count '%'

/-- Does the list start with the pattern (Go `strings.HasPrefix`). -/
def listStarts : List Char → List Char → Bool
  | _, [] => true
  | [], _ :: _ => false
  | c :: cs, d :: ds => c = d && listStarts cs ds

/-- Does the list contain the pattern as a contiguous run
(Go `strings.Contains`). -/
def listHasSub (pat : List Char) : List Char → Bool
  | [] => listStarts [] pat
  | c :: rest => listStarts (c :: rest) pat || listHasSub pat rest

def strContains (s pat : String) : Bool := listHasSub pat.data s.data

def strStarts (s pat : String) : Bool := listStarts s.data pat.data

/-- Go `strings.HasSuffix`. -/
def strEnds (s pat : String) : Bool := listStarts s.data.reverse pat.data.reverse

/-! ## Placeholder-syntax validator (templatevar.go `checkSingleString`) -/

/-- The character loop of `checkSingleString`: `%` toggles `withInVar`; a
denied character seen while inside a placeholder span aborts with the
Warn return (modelled as `none`); otherwise the final `withInVar` state
is returned. -/
def scanVar : Bool → List Char → Option Bool
  | w, [] => some w
  | w, c :: cs =>
    if c = '%' then scanVar (!w) cs
    else if w && isDenied c then none
    else scanVar w cs

/-- `checkSingleString` from templatevar.go: Warn on a denied character
inside a placeholder span (short-circuit), else Info when the field
contains the literal `%host%`, else Error when a placeholder span is
left open at end of field, else OK. -/
def checkSingleString (input : String) : CheckSeverity :=
  match scanVar false input.data with
  | none => CheckWarn
  | some w =>
    if strContains input "%host%" then CheckInfo
    else if w then CheckError
    else CheckOK

lemma scanVar_parity : ∀ (cs : List Char) (w0 w : Bool),
    scanVar w0 cs = some w → w = (xor w0 (decide (cs.count '%' % 2 = 1))) := by
  intro cs
  induction cs with
  | nil =>
    intro w0 w h
    simp only [scanVar, Option.some_inj] at h
    simp [← h]
  | cons c cs ih =>
    intro w0 w h
    rw [scanVar] at h
    by_cases hc : c = '%'
    · rw [if_pos hc] at h
      have := ih (!w0) w h
      subst hc
      rw [this]
      have hcount : (('%' :: cs).count '%') = cs.count '%' + 1 := by
        simp [List.count_cons]
      rw [hcount]
      have : ((cs.count '%' + 1) % 2 = 1) ↔ ¬(cs.count '%' % 2 = 1) := by omega
      cases hodd : decide (cs.count '%' % 2 = 1) <;>
        cases w0 <;> simp_all
    · rw [if_neg hc] at h
      have hcount : ((c :: cs).count '%') = cs.count '%' := by
        simp [List.count_cons, hc]
      by_cases hd : w0 && isDenied c
      · rw [if_pos hd] at h; cases h
      · rw [if_neg hd] at h
        rw [hcount]
        exact ih w0 w h

/-- C4 counterexample. The field `"%host%%"` has an odd number of `%`
characters (an unterminated placeholder span) and also contains the
literal `%host%`; the claim says `checkSingleString` returns Error, but
the `%host%` Info finding is checked first and the function returns
Info, not Error. -/
theorem c4_counterexample :
    ("%host%%".data.count '%') % 2 = 1 ∧
    strContains "%host%%" "%host%" = true ∧
    checkSingleString "%host%%" = CheckInfo ∧
    checkSingleString "%host%%" ≠ CheckError := by
  decide

/-- C4 (amended). A field with an odd number of `%` characters makes
`checkSingleString` return Error, provided no earlier finding
short-circuits the scan: a denied character inside an open placeholder
span returns Warn, and a field containing the literal `%host%` returns
Info, both taking precedence over the unterminated-placeholder Error.
Under those two provisos, Error is returned exactly when the `%` count
is odd. -/
theorem c4_odd_percent_error (s : String)
    (h1 : scanVar false s.data ≠ none)
    (h2 : strContains s "%host%" = false) :
    checkSingleString s = CheckError ↔ s.data.count '%' % 2 = 1 := by
  rcases hw : scanVar false s.data with _ | w
  · exact absurd hw h1
  · have hpar := scanVar_parity s.data false w hw
    simp only [Bool.false_xor] at hpar
    rw [checkSingleString, hw, h2]
    simp only [Bool.false_eq_true, if_false]
    subst hpar
    cases hodd : decide (s.data.count '%' % 2 = 1) <;> simp_all [CheckError, CheckOK]

/-- C4 witness: the amended statement applied at `"%unterminated"`. -/
theorem c4_odd_percent_error_witness :
    checkSingleString "%unterminated" = CheckError :=
  (c4_odd_percent_error "%unterminated" (by decide) (by decide)).mpr (by decide)

/-! ## SINT.MarshalJSON (internal/json.go, `type SINT string`) -/

/-- Result of `SINT.MarshalJSON`: the written bytes, the error return, or
the runtime out-of-range failure of the unconditional `s[0]` index. -/
inductive MarshalResult where
  | ok (bytes : String)
  | err
  | outOfRange
  deriving DecidableEq

/-- `SINT.MarshalJSON`.  `s[0]` and `s[len(s)-1]` read bytes in Go; both
are compared only against the ASCII characters `'0'`, `'9'`, `'%'`, on
which the first/last byte and the first/last code point of a UTF-8
string agree (a non-ASCII lead or trail byte equals none of them, and a
non-ASCII code point equals none of them either), so the char-level
model decides the condition identically. -/
def sintMarshalJSON (sint : String) : MarshalResult :=
  match sint.data with
  | [] => MarshalResult.outOfRange
  | c :: rest =>
    if (c < '0' ∨ '9' < c) ∧
        (c ≠ '%' ∨ (c :: rest).getLast (List.cons_ne_nil c rest) ≠ '%') then
      MarshalResult.err
    else
      MarshalResult.ok ("\"" ++ sint ++ "\"")

lemma sintMarshalJSON_cons (s : String) (c : Char) (rest : List Char)
    (hs : s.data = c :: rest) :
    sintMarshalJSON s =
      if (c < '0' ∨ '9' < c) ∧
          (c ≠ '%' ∨ (c :: rest).getLast (List.cons_ne_nil c rest) ≠ '%') then
        MarshalResult.err
      else
        MarshalResult.ok ("\"" ++ s ++ "\"") := by
  unfold sintMarshalJSON
  rw [hs]

/-- C10. `SINT.MarshalJSON` reads `s[0]` unconditionally: on the empty
value the index is out of range (and only there), and on a non-empty
value it returns an error exactly when the first character is not a
decimal digit and the value is not delimited by `%` at both its first
and last character. -/
theorem c10_sint_marshal (s : String) :
    (sintMarshalJSON s = MarshalResult.outOfRange ↔ s = "") ∧
    (∀ (c : Char) (rest : List Char), s.data = c :: rest →
      (sintMarshalJSON s = MarshalResult.err ↔
        (¬('0' ≤ c ∧ c ≤ '9') ∧
         ¬(c = '%' ∧ (c :: rest).getLast (List.cons_ne_nil c rest) = '%')))) := by
  constructor
  · constructor
    · intro h
      rcases hs : s.data with _ | ⟨c, rest⟩
      · exact String.ext (by simpa using hs)
      · rw [sintMarshalJSON_cons s c rest hs] at h
        split at h <;> cases h
    · rintro rfl
      rfl
  · intro c rest hs
    rw [sintMarshalJSON_cons s c rest hs]
    have hiff : ((c < '0' ∨ '9' < c) ∧
        (c ≠ '%' ∨ (c :: rest).getLast (List.cons_ne_nil c rest) ≠ '%')) ↔
        (¬('0' ≤ c ∧ c ≤ '9') ∧
         ¬(c = '%' ∧ (c :: rest).getLast (List.cons_ne_nil c rest) = '%')) := by
      rw [not_and_or, not_le, not_le, not_and_or]
    by_cases hcond : (c < '0' ∨ '9' < c) ∧
        (c ≠ '%' ∨ (c :: rest).getLast (List.cons_ne_nil c rest) ≠ '%')
    · rw [if_pos hcond]
      simp only [true_iff]
      exact hiff.mp hcond
    · rw [if_neg hcond]
      constructor
      · intro h; cases h
      · intro h; exact absurd (hiff.mpr h) hcond

/-- C10 witness: `"-1"` (non-empty, first char not a digit, not
%-delimited) errors; `""` hits the out-of-range index. -/
theorem c10_sint_marshal_witness :
    sintMarshalJSON "-1" = MarshalResult.err ∧
    sintMarshalJSON "" = MarshalResult.outOfRange :=
  ⟨((c10_sint_marshal "-1").2 '-' ['1'] rfl).mpr (by decide),
   (c10_sint_marshal "").1.mpr rfl⟩

/-! ## Reserved-label validator (underscores.go) -/

def TypeNS : Nat := 2
def TypeCNAME : Nat := 5
def TypeNULL : Nat := 10
def TypeTXT : Nat := 16
def TypeSRV : Nat := 33
def TypeTLSA : Nat := 52
def TypeSMIMEA : Nat := 53
def TypeOPENPGPKEY : Nat := 61
def TypeSVCB : Nat := 64
def TypeHTTPS : Nat := 65
def TypeURI : Nat := 256

/-- The `recordToType` map. -/
def recordToType (s : String) : Option Nat :=
  if s = "NS" then some TypeNS
  else if s = "CNAME" then some TypeCNAME
  else if s = "NULL" then some TypeNULL
  else if s = "TXT" then some TypeTXT
  else if s = "SRV" then some TypeSRV
  else if s = "TLSA" then some TypeTLSA
  else if s = "SMIMEA" then some TypeSMIMEA
  else if s = "OPENPGPKEY" then some TypeOPENPGPKEY
  else if s = "SVCB" then some TypeSVCB
  else if s = "HTTPS" then some TypeHTTPS
  else if s = "URI" then some TypeURI
  else none

/-- The `rfc8552` reserved-label table. -/
def rfc8552 (s : String) : Option (List Nat) :=
  if s = "_acct" then some [TypeURI]
  else if s = "_acme-challenge" then some [TypeTXT]
  else if s = "_dane" then some [TypeTLSA]
  else if s = "_dccp" then some [TypeSRV, TypeURI]
  else if s = "_dmarc" then some [TypeTXT]
  else if s = "_dns" then some [TypeSVCB]
  else if s = "_domainkey" then some [TypeTXT]
  else if s = "_email" then some [TypeURI]
  else if s = "_ems" then some [TypeURI]
  else if s = "_fax" then some [TypeURI]
  else if s = "_ft" then some [TypeURI]
  else if s = "_h323" then some [TypeURI]
  else if s = "_https" then some [TypeHTTPS]
  else if s = "_http" then some [TypeSRV]
  else if s = "_iax" then some [TypeURI]
  else if s = "_ical-access" then some [TypeURI]
  else if s = "_ical-sched" then some [TypeURI]
  else if s = "_ifax" then some [TypeURI]
  else if s = "_im" then some [TypeURI]
  else if s = "_ipv6" then some [TypeSRV]
  else if s = "_ldap" then some [TypeSRV]
  else if s = "_mms" then some [TypeURI]
  else if s = "_mta-sts" then some [TypeTXT]
  else if s = "_ocsp" then some [TypeSRV]
  else if s = "_openpgpkey" then some [TypeOPENPGPKEY]
  else if s = "_pres" then some [TypeURI]
  else if s = "_pstn" then some [TypeURI]
  else if s = "_sctp" then some [TypeSRV, TypeTLSA, TypeURI]
  else if s = "_sip" then some [TypeSRV, TypeURI]
  else if s = "_smimecert" then some [TypeSMIMEA]
  else if s = "_sms" then some [TypeURI]
  else if s = "_spf" then some [TypeTXT]
  else if s = "_sztp" then some [TypeTXT]
  else if s = "_ta-*" then some [TypeNULL]
  else if s = "_tcp" then some [TypeTXT, TypeSRV, TypeTLSA, TypeURI]
  else if s = "_udp" then some [TypeTXT, TypeSRV, TypeTLSA, TypeURI]
  else if s = "_unifmsg" then some [TypeURI]
  else if s = "_validation-contactemail" then some [TypeTXT]
  else if s = "_validation-contactphone" then some [TypeTXT]
  else if s = "_vcard" then some [TypeURI]
  else if s = "_videomsg" then some [TypeURI]
  else if s = "_voicemsg" then some [TypeURI]
  else if s = "_voice" then some [TypeURI]
  else if s = "_vouch" then some [TypeTXT]
  else if s = "_vpim" then some [TypeURI]
  else if s = "_web" then some [TypeURI]
  else if s = "_xmpp" then some [TypeSRV, TypeURI]
  else none

/-- `isStaticLabelUnderscore`: scan the label; `%` toggles the
inside-a-variable state, and an `_` seen outside a variable span answers
true. -/
def staticUnderscoreScan : Bool → List Char → Bool
  | _, [] => false
  | w, c :: cs =>
    let w2 := if c = '%' then !w else w
    if !w2 && c = '_' then true else staticUnderscoreScan w2 cs

def isStaticLabelUnderscore (elem : String) : Bool :=
  staticUnderscoreScan false elem.data

/-- Go `strings.ToLower` / `strings.ToUpper`, modelled at the ASCII
level (`Char.toLower`/`Char.toUpper` case-map only `A`–`Z`/`a`–`z`; all
table keys and record types compared here are ASCII). -/
def goToLower (s : String) : String := String.mk (s.data.map Char.toLower)

def goToUpper (s : String) : String := String.mk (s.data.map Char.toUpper)

/-- The body of the per-label loop of `checkUnderscoreNames`
(underscores.go).  `strings.Index(elem, "_")` is the index of the first
`_` (byte index in Go; all comparisons here involve ASCII labels, where
byte and char index agree).  Go `strings.ToLower`/`ToUpper` are modelled
by Lean's ASCII `String.toLower`/`toUpper`. -/
def underscoreLabelSev (rrtype elem : String) : CheckSeverity :=
  if (match elem.data.findIdx? (fun c => c = '_') with
      | some k => decide (1 < k)
      | none => false) && isStaticLabelUnderscore elem then CheckInfo
  else if elem.data.head? ≠ some '_' then CheckOK
  else match rfc8552 (goToLower elem) with
    | none => CheckDebug
    | some okTypes =>
      match recordToType (goToUpper rrtype) with
      | none => CheckInfo
      | some templateType =>
        if (TypeNS :: TypeCNAME :: okTypes).contains templateType then CheckOK
        else CheckInfo

/-- Go `strings.Split` on a one-character separator: all separators are
split points, empty fields kept, and the empty string yields `[""]`. -/
def splitChar (sep : Char) : List Char → List (List Char)
  | [] => [[]]
  | c :: rest =>
    let r := splitChar sep rest
    if c = sep then [] :: r
    else match r with
      | [] => [[c]]
      | g :: gs => (c :: g) :: gs

def goSplit (s : String) (sep : Char) : List String :=
  (splitChar sep s.data).map String.mk

/-- `checkUnderscoreNames(rrtype, host)`: or-fold of the loop body over
the `.`-separated labels of the host. -/
def checkUnderscoreNames (rrtype host : String) : CheckSeverity :=
  (goSplit host '.').foldl (fun acc elem => acc ||| underscoreLabelSev rrtype elem)
    CheckOK

/-- C8 counterexample. Label `_dmarc` has allowed-type set `{TXT}`,
which contains neither the record's own type NS, nor NS, nor CNAME, so
the claim demands an Info finding for an NS record at `_dmarc`; but the
code exempts records whose own type is NS or CNAME, and reports
nothing. -/
theorem c8_counterexample :
    rfc8552 "_dmarc" = some [TypeTXT] ∧
    recordToType "NS" = some TypeNS ∧
    [TypeTXT].contains TypeNS = false ∧
    [TypeTXT].contains TypeCNAME = false ∧
    checkUnderscoreNames "NS" "_dmarc" = CheckOK ∧
    checkUnderscoreNames "NS" "_dmarc" ≠ CheckInfo := by
  decide

/-- C8 (amended). A host label beginning with `_` that is present
(case-insensitively) in the reserved-label table produces an Info
finding exactly when the record's type has no entry in the
type-number map, or its type number is neither NS nor CNAME nor a
member of the label's allowed-type set — i.e. the NS/CNAME exemption is
for records whose own type is NS or CNAME, not for allowed-type sets
mentioning them. In particular `_dmarc` on TXT gives no Info and
`_dmarc` on A gives Info. -/
theorem c8_label_info (rrtype elem : String) (okTypes : List Nat)
    (h0 : elem.data.head? = some '_')
    (h1 : rfc8552 (goToLower elem) = some okTypes) :
    underscoreLabelSev rrtype elem = CheckInfo ↔
      (recordToType (goToUpper rrtype) = none ∨
       ∃ n, recordToType (goToUpper rrtype) = some n ∧
         (TypeNS :: TypeCNAME :: okTypes).contains n = false) := by
  rcases hd : elem.data with _ | ⟨c, rest⟩
  · rw [hd] at h0; cases h0
  · have hc : c = '_' := by rw [hd] at h0; simpa using h0
    subst hc
    have hidx : elem.data.findIdx? (fun c => c = '_') = some 0 := by
      rw [hd]; simp [List.findIdx?]
    have hhead : elem.data.head? = some '_' := by rw [hd]; rfl
    rw [underscoreLabelSev, hidx, hhead]
    simp only [h1, ne_eq, not_true_eq_false, if_false, Bool.false_and,
      show decide (1 < 0) = false from rfl]
    rcases hr : recordToType (goToUpper rrtype) with _ | n
    · constructor
      · intro _; exact Or.inl rfl
      · intro _; rfl
    · simp only [hr]
      by_cases hmem : (TypeNS :: TypeCNAME :: okTypes).contains n
      · rw [if_pos hmem]
        constructor
        · intro h; cases h
        · rintro (h | ⟨n2, hn2, hc2⟩)
          · cases h
          · obtain rfl : n = n2 := by cases hn2; rfl
            rw [hmem] at hc2
            cases hc2
      · rw [if_neg hmem]
        constructor
        · intro _
          exact Or.inr ⟨n, rfl, by simpa using hmem⟩
        · intro _; rfl

/-- C8 witness: the amended statement applied at record type A and label
`_dmarc` (A has no type-number entry, so an Info finding results). -/
theorem c8_label_info_witness :
    underscoreLabelSev "A" "_dmarc" = CheckInfo :=
  (c8_label_info "A" "_dmarc" [TypeTXT] (by decide) (by decide)).mpr
    (Or.inl (by decide))

/-! ## Severity-bit helper lemmas -/

lemma hasSev_or_left (a b c : Nat) (h : hasSev a c) : hasSev (a ||| b) c := by
  unfold hasSev at *
  apply Nat.eq_of_testBit_eq
  intro i
  have hbit := congrArg (fun x => Nat.testBit x i) h
  simp only [Nat.testBit_and] at hbit
  rw [Nat.testBit_and, Nat.testBit_or]
  cases hc : c.testBit i
  · simp
  · rw [hc] at hbit
    simp only [Bool.and_true] at hbit
    simp [hbit]

lemma hasSev_or_right (a b c : Nat) (h : hasSev b c) : hasSev (a ||| b) c := by
  rw [Nat.lor_comm]
  exact hasSev_or_left b a c h

/-! ## SPF-rule validator (record.go `checkSPFRules`) -/

/-- Whitespace for Go `strings.Fields` (`unicode.IsSpace`), restricted to
the Latin-1 space characters; the SPF grammar and every input compared
here is ASCII. -/
def isGoSpace (c : Char) : Bool :=
  c = ' ' || c = '\t' || c = '\n' || c = Char.ofNat 11 || c = Char.ofNat 12 ||
  c = '\r' || c = Char.ofNat 133 || c = Char.ofNat 160

/-- Split on every character satisfying `p`, keeping empty fields. -/
def splitPred (p : Char → Bool) : List Char → List (List Char)
  | [] => [[]]
  | c :: rest =>
    let r := splitPred p rest
    if p c then [] :: r
    else match r with
      | [] => [[c]]
      | g :: gs => (c :: g) :: gs

/-- Go `strings.Fields`: split on whitespace runs, dropping empty
fields. -/
def goFields (s : String) : List String :=
  ((splitPred isGoSpace s.data).filter (fun g => ¬ g.isEmpty)).map String.mk

def isAsciiLetter (c : Char) : Bool :=
  ('a' ≤ c && c ≤ 'z') || ('A' ≤ c && c ≤ 'Z')

/-- Characters allowed after the first one in a modifier name, the class
`[a-z0-9_.-]` of `modifierRe` under its `(?i)` flag. -/
def isNameChar (c : Char) : Bool :=
  isAsciiLetter c || ('0' ≤ c && c ≤ '9') || c = '_' || c = '.' || c = '-'

def modNameScan (acc : List Char) : List Char → Option (List Char)
  | [] => none
  | c :: rest =>
    if c = '=' then some acc.reverse
    else if isNameChar c then modNameScan (c :: acc) rest
    else none

/-- `modifierRe.FindStringSubmatch(field)`:
`^((?i)[a-z][a-z0-9_.-]*)=(.*)` matches iff the field starts with a
letter, continues with name-class characters, and the first character
outside the class is `=` (`=` is not in the class, so greedy matching
with backtracking can only succeed at that boundary; `(.*)` always
matches the remainder since a field contains no newline).  Returns the
captured modifier name. -/
def modifierName (f : String) : Option String :=
  match f.data with
  | [] => none
  | c :: rest =>
    if isAsciiLetter c then (modNameScan [c] rest).map String.mk else none

/-- Strip one leading qualifier `+`, `-`, `~`, `?` (the `switch field[0]`
step; fields produced by `strings.Fields` are never empty). -/
def spfQualStrip : List Char → List Char
  | [] => []
  | c :: rest =>
    if c = '+' || c = '-' || c = '~' || c = '?' then rest else c :: rest

/-- `strings.IndexAny(field, ":")` truncation: keep everything before
the first `:` (the whole field when there is none). -/
def spfColonTrunc (cs : List Char) : List Char := cs.takeWhile (fun c => c ≠ ':')

def spfKeywordOK (cs : List Char) : Bool :=
  cs = "include".data || cs = "a".data || cs = "mx".data || cs = "ptr".data ||
  cs = "ip4".data || cs = "ip6".data || cs = "exists".data

/-- One iteration of the field loop of `checkSPFRules`.  The track state
is `(redirect, exp)`. -/
def spfFieldStep (tr : Bool × Bool) (field : String) :
    CheckSeverity × (Bool × Bool) :=
  if isVariable field then (CheckOK, tr)
  else
    match modifierName field with
    | some nm =>
      if nm = "redirect" then
        ((if tr.1 then CheckError else CheckOK), (true, tr.2))
      else if nm = "exp" then
        ((if tr.2 then CheckError else CheckOK), (tr.1, true))
      else (CheckError, tr)
    | none =>
      ((if spfKeywordOK (spfColonTrunc (spfQualStrip field.data)) then CheckOK
        else CheckError), tr)

def spfFold : Bool × Bool → CheckSeverity → List String → CheckSeverity
  | _, acc, [] => acc
  | tr, acc, f :: fs =>
    let step := spfFieldStep tr f
    spfFold step.2 (acc ||| step.1) fs

/-- `checkSPFRules(rules)` from record.go (its caller passes the
lower-cased `spfRules` field). -/
def checkSPFRules (rules : String) : CheckSeverity :=
  if rules = "" then CheckError
  else
    spfFold (false, false)
      (CheckOK |||
        (if strStarts rules "v=spf1" then CheckError else CheckOK) |||
        (if strEnds rules "all" then CheckError else CheckOK))
      (goFields rules)

def trackAfter (tr : Bool × Bool) (fs : List String) : Bool × Bool :=
  fs.foldl (fun t f => (spfFieldStep t f).2) tr

/-- The tracked flag for a modifier: `true` selects redirect, `false`
selects exp. -/
def trFlag : Bool → Bool × Bool → Bool
  | true, tr => tr.1
  | false, tr => tr.2

def modOf : Bool → String
  | true => "redirect"
  | false => "exp"

lemma spfFold_append (xs ys : List String) : ∀ tr acc,
    spfFold tr acc (xs ++ ys) =
      spfFold (trackAfter tr xs) (spfFold tr acc xs) ys := by
  induction xs with
  | nil => intro tr acc; rfl
  | cons x xs ih =>
    intro tr acc
    rw [List.cons_append, spfFold, ih]
    rfl

lemma spfFold_acc (fs : List String) : ∀ tr acc c,
    hasSev acc c → hasSev (spfFold tr acc fs) c := by
  induction fs with
  | nil => intro tr acc c h; exact h
  | cons f fs ih =>
    intro tr acc c h
    rw [spfFold]
    exact ih _ _ _ (hasSev_or_left _ _ _ h)

lemma spfStep_sets_flag (which : Bool) (tr : Bool × Bool) (f : String)
    (hv : isVariable f = false) (hm : modifierName f = some (modOf which)) :
    trFlag which (spfFieldStep tr f).2 = true := by
  cases which <;>
    simp only [modOf] at hm <;>
    simp [spfFieldStep, hv, hm, trFlag]

lemma spfStep_flag_mono (which : Bool) (tr : Bool × Bool) (f : String)
    (h : trFlag which tr = true) :
    trFlag which (spfFieldStep tr f).2 = true := by
  rcases hm : modifierName f with _ | nm <;>
    by_cases hv : isVariable f <;>
    cases which <;>
    simp only [trFlag] at h <;>
    simp [spfFieldStep, hv, hm, trFlag] <;>
    first
      | (split_ifs <;> simp_all [trFlag])
      | simp_all [trFlag]

lemma trackAfter_flag_mono (fs : List String) : ∀ (which : Bool) tr,
    trFlag which tr = true → trFlag which (trackAfter tr fs) = true := by
  induction fs with
  | nil => intro which tr h; exact h
  | cons f fs ih =>
    intro which tr h
    rw [trackAfter, List.foldl_cons]
    exact ih which _ (spfStep_flag_mono which tr f h)

lemma spfFold_error_of_bad_modifier (fs : List String) : ∀ tr acc f nm,
    f ∈ fs → isVariable f = false → modifierName f = some nm →
    nm ≠ "redirect" → nm ≠ "exp" →
    hasSev (spfFold tr acc fs) CheckError := by
  induction fs with
  | nil => intro tr acc f nm hmem; cases hmem
  | cons g gs ih =>
    intro tr acc f nm hmem hv hm h1 h2
    rcases List.mem_cons.mp hmem with rfl | hmem2
    · rw [spfFold]
      apply spfFold_acc
      apply hasSev_or_right
      have hstep : (spfFieldStep tr f).1 = CheckError := by
        simp [spfFieldStep, hv, hm, h1, h2]
      rw [hstep]
      decide
    · rw [spfFold]
      exact ih _ _ f nm hmem2 hv hm h1 h2

lemma spfFold_error_of_flag (fs : List String) : ∀ (which : Bool) tr acc f,
    trFlag which tr = true → f ∈ fs → isVariable f = false →
    modifierName f = some (modOf which) →
    hasSev (spfFold tr acc fs) CheckError := by
  induction fs with
  | nil => intro which tr acc f _ hmem; cases hmem
  | cons g gs ih =>
    intro which tr acc f hfl hmem hv hm
    rcases List.mem_cons.mp hmem with rfl | hmem2
    · rw [spfFold]
      apply spfFold_acc
      apply hasSev_or_right
      have hstep : (spfFieldStep tr f).1 = CheckError := by
        cases which <;>
          simp only [modOf] at hm <;>
          simp only [trFlag] at hfl <;>
          simp [spfFieldStep, hv, hm, hfl]
      rw [hstep]
      decide
    · rw [spfFold]
      exact ih which _ _ f (spfStep_flag_mono which tr g hfl) hmem2 hv hm

/-- C7 counterexample. The field `foo=%bar%` matches the `name=value`
modifier pattern with name `foo`, which is neither `redirect` nor `exp`,
yet `checkSPFRules` reports no Error: the field counts as a placeholder
(two `%` characters) and is accepted unconditionally before the modifier
pattern is ever tried. -/
theorem c7_counterexample :
    modifierName "foo=%bar%" = some "foo" ∧
    ("foo" : String) ≠ "redirect" ∧ ("foo" : String) ≠ "exp" ∧
    checkSPFRules "foo=%bar%" = CheckOK := by
  decide

/-- C7 (amended). For fields that are not placeholder syntax (at most
one `%`): a field matching the modifier pattern with a name other than
`redirect`/`exp` forces an Error in `checkSPFRules`; the `redirect` (or
`exp`) modifier occurring in two such fields forces an Error; and a
single `redirect` plus a single `exp` produce no Error at all.
Placeholder fields are accepted unconditionally and never counted. -/
theorem c7_spf_modifiers :
    (∀ rules f nm, f ∈ goFields rules → isVariable f = false →
        modifierName f = some nm → nm ≠ "redirect" → nm ≠ "exp" →
        hasSev (checkSPFRules rules) CheckError) ∧
    (∀ (which : Bool) rules pre mid post f1 f2,
        goFields rules = pre ++ f1 :: (mid ++ f2 :: post) →
        isVariable f1 = false → isVariable f2 = false →
        modifierName f1 = some (modOf which) →
        modifierName f2 = some (modOf which) →
        hasSev (checkSPFRules rules) CheckError) ∧
    checkSPFRules "redirect=_spf.example.com exp=e.example.com" = CheckOK := by
  refine ⟨?_, ?_, by decide⟩
  · intro rules f nm hmem hv hm h1 h2
    rw [checkSPFRules]
    split
    · decide
    · exact spfFold_error_of_bad_modifier _ _ _ f nm hmem hv hm h1 h2
  · intro which rules pre mid post f1 f2 hsplit hv1 hv2 hm1 hm2
    rw [checkSPFRules]
    split
    · decide
    · rw [hsplit, spfFold_append]
      rw [spfFold]
      apply spfFold_error_of_flag _ which _ _ f2
      · exact spfStep_sets_flag which _ f1 hv1 hm1
      · exact List.mem_append_right mid (List.mem_cons_self f2 post)
      · exact hv2
      · exact hm2

/-- C7 witness: an unknown modifier name alone forces Error, and a
duplicated redirect modifier forces Error. -/
theorem c7_spf_modifiers_witness :
    hasSev (checkSPFRules "foo=bar") CheckError ∧
    hasSev (checkSPFRules "redirect=_spf.example.com redirect=_spf2.example.com")
      CheckError :=
  ⟨c7_spf_modifiers.1 "foo=bar" "foo=bar" "foo" (by decide) (by decide)
      (by decide) (by decide) (by decide),
   c7_spf_modifiers.2.1 true "redirect=_spf.example.com redirect=_spf2.example.com"
      [] [] [] "redirect=_spf.example.com" "redirect=_spf2.example.com"
      (by decide) (by decide) (by decide) (by decide) (by decide)⟩

/-! ## Record model (internal/json.go, current snapshot: `type SINT string`,
every other record field a plain string; Go zero values are `""`) -/

structure Record where
  type : String := ""
  groupId : String := ""
  essential : String := ""
  host : String := ""
  name : String := ""
  pointsTo : String := ""
  ttl : String := ""
  data : String := ""
  txtCMM : String := ""
  txtCMP : String := ""
  priority : String := ""
  weight : String := ""
  port : String := ""
  protocol : String := ""
  service : String := ""
  target : String := ""
  spfRules : String := ""
  deriving DecidableEq

def isDigitChar (c : Char) : Bool := '0' ≤ c && c ≤ '9'

def natOfDigits (cs : List Char) : Nat :=
  cs.foldl (fun acc c => acc * 10 + (c.toNat - 48)) 0

/-- JSON decoder whitespace (space, tab, newline, carriage return). -/
def isJsonSpace (c : Char) : Bool :=
  c = ' ' || c = '\t' || c = '\n' || c = '\r'

/-- `encoding/json.Unmarshal` of the raw SINT bytes into a `uint32`:
succeeds exactly on a (whitespace-trimmed) JSON integer token
`0 | [1-9][0-9]*` whose value fits 32 bits — a sign, fraction, exponent
or leading zero makes `ParseUint` or the JSON syntax check fail. -/
def jsonUint32 (s : String) : Option Nat :=
  let t := (s.data.dropWhile isJsonSpace).reverse.dropWhile isJsonSpace |>.reverse
  if t ≠ [] ∧ t.all isDigitChar ∧ (t = ['0'] ∨ t.head? ≠ some '0') then
    if natOfDigits t ≤ 4294967295 then some (natOfDigits t) else none
  else none

/-- `SINT.Uint32()` (internal/json.go): on parse failure the `uint32`
variable keeps its zero value and `ok` falls back to the placeholder
test `strings.Count(s, "%") > 1`. -/
def sintUint32 (s : String) : Nat × Bool :=
  match jsonUint32 s with
  | some v => (v, true)
  | none => (0, isVariable s)

/-- `strconv.Atoi`: optional sign, then decimal digits, value within
`int64`. -/
def atoiInt (s : String) : Option Int :=
  match s.data with
  | [] => none
  | c :: rest =>
    let digits := if c = '-' || c = '+' then rest else c :: rest
    if digits ≠ [] ∧ digits.all isDigitChar then
      let v : Int := if c = '-' then -(natOfDigits digits : Int) else natOfDigits digits
      if -(2 ^ 63) ≤ v ∧ v ≤ 2 ^ 63 - 1 then some v else none
    else none

/-- `SINT.Uint16()`: `strconv.Atoi` then Go's truncating `uint16(i)`
conversion (two's-complement, i.e. `i mod 2^16`); on failure the
placeholder fallback as in `Uint32`. -/
def sintUint16 (s : String) : Nat × Bool :=
  match atoiInt s with
  | some i => ((i % 65536).toNat, true)
  | none => (0, isVariable s)

def MaxTTL : Nat := 2147483647
def max31b : Nat := 2147483647
def max16b : Nat := 65535

/-- `isInvalidProtocol` (record.go, current snapshot): `_tcp`, `_udp`,
`_tls` case-insensitively are valid, and otherwise the protocol is
invalid only when it contains no `%` at all. -/
def isInvalidProtocol (proto : String) : Bool :=
  if goToLower proto = "_tcp" ∨ goToLower proto = "_udp" ∨ goToLower proto = "_tls"
  then false
  else proto.data.count '%' = 0

def requiresTTL (recordType : String) : Bool :=
  recordType = "CNAME" || recordType = "NS" || recordType = "A" ||
  recordType = "AAAA" || recordType = "TXT" || recordType = "MX" ||
  recordType = "SRV"

def mutuallyExclusive : List String := ["data", "name", "pointsTo", "target"]

/-- The record's fields in struct declaration order with their json tag
names, as `reflect` enumerates them in `targetCheck` (the tags of
`priority`, `weight`, `port` are malformed in the source, but
`Lookup("json")` still yields a value whose first comma-separated item
is the field name). -/
def recordJsonFields : List (String × (Record → String)) :=
  [("type", Record.type), ("groupId", Record.groupId),
   ("essential", Record.essential), ("host", Record.host),
   ("name", Record.name), ("pointsTo", Record.pointsTo),
   ("ttl", Record.ttl), ("data", Record.data),
   ("txtConflictMatchingMode", Record.txtCMM),
   ("txtConflictMatchingPrefix", Record.txtCMP),
   ("priority", Record.priority), ("weight", Record.weight),
   ("port", Record.port), ("protocol", Record.protocol),
   ("service", Record.service), ("target", Record.target),
   ("spfRules", Record.spfRules)]

/-- `targetCheck(record, requiredField)` (record.go): the required field
must be non-empty (Error); any other populated member of the mutually
exclusive group `data`/`name`/`pointsTo`/`target` is an Info, except
`name` on an SRV record. -/
def targetCheck (record : Record) (requiredField : String) : CheckSeverity :=
  recordJsonFields.foldl (fun acc fld =>
    acc |||
      (if fld.1 = "" then CheckError
       else if fld.1 = requiredField then
         (if fld.2 record = "" then CheckError else CheckOK)
       else if record.type = "SRV" ∧ fld.1 = "name" then CheckOK
       else if mutuallyExclusive.contains fld.1 then
         (if fld.2 record ≠ "" then CheckInfo else CheckOK)
       else CheckOK)) CheckOK

/-- `findDuplicates` (duplicates.go): the per-document duplicate set
holds a gob-encoded xxhash fingerprint per record; gob encoding of this
flat all-string struct is deterministic and injective and can never
fail, so the fingerprint set is modelled as a set of the records
themselves (hash collisions are outside the model). -/
def findDuplicates (record : Record) (dups : List Record) :
    CheckSeverity × List Record :=
  if dups.contains record then (CheckWarn, dups)
  else (CheckOK, record :: dups)

/-- `findInvalidTemplateStrings` (templatevar.go). -/
def findInvalidTemplateStrings (record : Record) : CheckSeverity :=
  checkSingleString record.host ||| checkSingleString record.name |||
  checkSingleString record.pointsTo ||| checkSingleString record.data |||
  checkSingleString record.txtCMP ||| checkSingleString record.service |||
  checkSingleString record.target ||| checkSingleString record.spfRules

/-- `checkHostForDeniedChars` (record.go): hosts `*` and `@` pass; `.`
and `%` are skipped; any other character is reported through
`isDenied`. -/
def checkHostForDeniedChars (host : String) : Bool :=
  if host = "*" ∨ host = "@" then false
  else host.data.any (fun c => !(c = '.' || c = '%') && isDenied c)

/-! ## Conflict map: `conflictingTypes map[string]string` -/

def ConflictMap := List (String × String)

def cmLookup (m : ConflictMap) (k : String) : Option String :=
  (m.find? (fun p => p.1 = k)).map (fun p => p.2)

def cmInsert (m : ConflictMap) (k v : String) : ConflictMap := (k, v) :: m

def conflictKey (r : Record) : String := r.groupId ++ "/" ++ r.host

/-- The CNAME-exclusivity step of `checkRecord` (record.go): report Error
when the key is present and the stored or the current type is CNAME;
then store the current record's type at the key. -/
def conflictSevStep (m : ConflictMap) (r : Record) : CheckSeverity × ConflictMap :=
  (match cmLookup m (conflictKey r) with
   | some t => if t = "CNAME" ∨ r.type = "CNAME" then CheckError else CheckOK
   | none => CheckOK,
   cmInsert m (conflictKey r) r.type)

/-! ## checkRecord (record.go, current snapshot) -/

/-- Linter configuration (config.go), restricted to the fields
`checkRecord`/`checkTemplate` read. -/
structure Conf where
  fileName : String := "/dev/stdin"
  checkLogos : Bool := false
  cloudflare : Bool := false
  inplace : Bool := false
  increment : Bool := false
  prettyPrint : Bool := false
  ttl : Nat := 0

/-- `checkRecord` (record.go).  Returns the aggregated severity, the
updated conflict map, the updated duplicate set and the (possibly
TTL-rewritten) record.  The denied-character scan near the end logs an
Error but the source never ors `CheckError` into `exitVal` there, so it
contributes nothing to the returned severity. -/
def checkRecord (conf : Conf) (hostRequired : Bool) (record : Record)
    (conflictingTypes : ConflictMap) (dups : List Record) :
    CheckSeverity × ConflictMap × List Record × Record :=
  let dupRes := findDuplicates record dups
  let conflictRes := conflictSevStep conflictingTypes record
  let typeSev :=
    if record.type = "CNAME" ∨ record.type = "NS" then
      (if record.host = "@" then
        (if conf.cloudflare then CheckInfo
         else if ¬ hostRequired then CheckError else CheckOK)
       else CheckOK) |||
      (if record.host = "" then CheckError else CheckOK) |||
      targetCheck record "pointsTo"
    else if record.type = "A" ∨ record.type = "AAAA" then
      (if record.host = "" then CheckError else CheckOK) |||
      targetCheck record "pointsTo"
    else if record.type = "TXT" then
      (if record.host = "" then CheckError else CheckOK) |||
      targetCheck record "data" |||
      (if conf.cloudflare then
        (if record.txtCMM ≠ "" ∨ record.txtCMM = "None" then CheckInfo
         else CheckOK) |||
        (if record.txtCMP ≠ "" then CheckInfo else CheckOK)
       else if record.txtCMM = "Prefix" ∧ record.txtCMP = "" then CheckWarn
       else CheckOK) |||
      (if strContains record.data "v=spf1" then CheckInfo else CheckOK)
    else if record.type = "MX" then
      (if record.host = "" then CheckError else CheckOK) |||
      targetCheck record "pointsTo" |||
      (if (sintUint32 record.priority).2 = false ∨
          max31b < (sintUint32 record.priority).1 then CheckError else CheckOK)
    else if record.type = "SRV" then
      targetCheck record "target" |||
      (if isInvalidProtocol record.protocol then CheckWarn else CheckOK) |||
      (if (sintUint32 record.priority).2 = false ∨
          max31b < (sintUint32 record.priority).1 then CheckError else CheckOK) |||
      (if record.service = "" then CheckError else CheckOK) |||
      (if (sintUint32 record.weight).2 = false ∨
          max31b < (sintUint32 record.weight).1 then CheckError else CheckOK) |||
      (if (sintUint16 record.port).2 = false ∨
          max16b < (sintUint16 record.port).1 then CheckError else CheckOK)
    else if record.type = "SPFM" then
      (if record.host = "" then CheckError else CheckOK) |||
      checkSPFRules (goToLower record.spfRules)
    else if record.type = "APEXCNAME" then
      (if conf.cloudflare then CheckInfo else CheckOK)
    else if record.type = "REDIR301" ∨ record.type = "REDIR302" then
      (if record.target = "" then CheckError else CheckOK)
    else CheckInfo
  let underscoreSev := checkUnderscoreNames record.type record.host
  let typeVarSev := if isVariable record.type then CheckError else CheckOK
  let ttlSev :=
    if (sintUint32 record.ttl).2 = true ∧ MaxTTL < (sintUint32 record.ttl).1 then
      CheckError
    else if (sintUint32 record.ttl).2 = true ∧ conf.cloudflare ∧
        (sintUint32 record.ttl).1 = 0 then CheckInfo
    else CheckOK
  let record2 :=
    if (sintUint32 record.ttl).2 = false ∧ (sintUint32 record.ttl).1 = 0 ∧
        conf.inplace ∧ 0 < conf.ttl ∧ requiresTTL record.type ∧
        isVariable record.ttl then
      { record with ttl := Nat.repr conf.ttl }
    else record
  let groupVarSev := if isVariable record2.groupId then CheckError else CheckOK
  let txtVarSev := if isVariable record2.txtCMP then CheckError else CheckOK
  let essentialSev :=
    if conf.cloudflare ∧ record2.essential ≠ "" then CheckInfo else CheckOK
  let invalidSev := findInvalidTemplateStrings record2
  (dupRes.1 ||| conflictRes.1 ||| typeSev ||| underscoreSev ||| typeVarSev |||
     ttlSev ||| groupVarSev ||| txtVarSev ||| essentialSev ||| invalidSev,
   conflictRes.2, dupRes.2, record2)

/-! ## Document-order scans over records -/

/-- Conflict-map state after a run of records. -/
def cmAfter (m : ConflictMap) (rs : List Record) : ConflictMap :=
  rs.foldl (fun m r => (conflictSevStep m r).2) m

/-- The per-record CNAME-conflict severities of a document, in order. -/
def conflictScan (m : ConflictMap) : List Record → List CheckSeverity
  | [] => []
  | r :: rs => (conflictSevStep m r).1 :: conflictScan (conflictSevStep m r).2 rs

/-- The type of the most recently declared record at a key. -/
def prevTypeAt (rs : List Record) (k : String) : Option String :=
  (rs.reverse.find? (fun r => conflictKey r = k)).map Record.type

/-- The per-record full `checkRecord` severities of a document, in
order, threading the conflict map and duplicate set as the records loop
of `checkTemplate` does. -/
def checkRecordsScan (conf : Conf) (hostRequired : Bool) :
    List Record → ConflictMap → List Record → List CheckSeverity
  | [], _, _ => []
  | r :: rs, cm, dups =>
    let res := checkRecord conf hostRequired r cm dups
    res.1 :: checkRecordsScan conf hostRequired rs res.2.1 res.2.2.1

lemma cmInsert_lookup (m : ConflictMap) (k v k2 : String) :
    cmLookup (cmInsert m k v) k2 = if k = k2 then some v else cmLookup m k2 := by
  by_cases h : k = k2 <;> simp [cmLookup, cmInsert, List.find?, h]

lemma cmAfter_lookup (rs : List Record) : ∀ (m : ConflictMap) (k : String),
    cmLookup (cmAfter m rs) k =
      (match prevTypeAt rs k with
       | some t => some t
       | none => cmLookup m k) := by
  induction rs with
  | nil => intro m k; simp [cmAfter, prevTypeAt, List.find?]
  | cons r rest ih =>
    intro m k
    show cmLookup (cmAfter (cmInsert m (conflictKey r) r.type) rest) k = _
    rw [ih]
    have hprev : prevTypeAt (r :: rest) k =
        (match prevTypeAt rest k with
         | some t => some t
         | none => if conflictKey r = k then some r.type else none) := by
      unfold prevTypeAt
      rw [List.reverse_cons, List.find?_append]
      rcases hfound : (rest.reverse.find? fun x => decide (conflictKey x = k)) with _ | x
      · by_cases hk : conflictKey r = k <;> simp [hfound, List.find?, hk]
      · simp [hfound]
    rw [hprev]
    rcases h : prevTypeAt rest k with _ | t
    · simp only []
      rw [cmInsert_lookup]
      by_cases hk : conflictKey r = k <;> simp [hk]
    · simp

lemma conflictScan_append (xs ys : List Record) : ∀ m : ConflictMap,
    conflictScan m (xs ++ ys) =
      conflictScan m xs ++ conflictScan (cmAfter m xs) ys := by
  induction xs with
  | nil => intro m; rfl
  | cons x xs ih =>
    intro m
    rw [List.cons_append, conflictScan, ih]
    rfl

lemma conflictScan_length (xs : List Record) : ∀ m : ConflictMap,
    (conflictScan m xs).length = xs.length := by
  induction xs with
  | nil => intro m; rfl
  | cons x xs ih => intro m; rw [conflictScan, List.length_cons, ih]; rfl

/-- C2 counterexample. Three records at the same (groupId, host) key:
CNAME, then A, then TXT.  The pair (first, third) shares the key and the
first is CNAME, so the claim demands Error on the third record; but the
conflict map stores the *last* seen type (A), so the third record gets
no Error — only the second does. -/
theorem c2_counterexample :
    checkRecordsScan {} false
      [{ type := "CNAME", groupId := "g", host := "h",
         pointsTo := "t.example.com", ttl := "300" },
       { type := "A", groupId := "g", host := "h",
         pointsTo := "1.2.3.4", ttl := "300" },
       { type := "TXT", groupId := "g", host := "h",
         data := "hello", ttl := "300" }] [] []
      = [CheckOK, CheckError, CheckOK] := by
  decide

/-- C2 (amended). In a document scan started from the fresh conflict
map, the CNAME-exclusivity severity of a record is Error exactly when
some earlier record shares its (groupId, host) key and either the
current record's type or the type of the *most recently* evaluated
earlier record at that key (last seen, not first declared) is CNAME. -/
theorem c2_conflict_last_seen (pre post : List Record) (r : Record) :
    (conflictScan [] (pre ++ r :: post))[pre.length]? =
      some (match prevTypeAt pre (conflictKey r) with
            | some t => if t = "CNAME" ∨ r.type = "CNAME" then CheckError
                        else CheckOK
            | none => CheckOK) := by
  rw [conflictScan_append]
  rw [List.getElem?_append_right (by rw [conflictScan_length])]
  rw [conflictScan_length, Nat.sub_self, conflictScan]
  rw [List.getElem?_cons_zero]
  have hstep : (conflictSevStep (cmAfter [] pre) r).1 =
      (match cmLookup (cmAfter [] pre) (conflictKey r) with
       | some t => if t = "CNAME" ∨ r.type = "CNAME" then CheckError else CheckOK
       | none => CheckOK) := rfl
  rw [hstep, cmAfter_lookup]
  rcases h : prevTypeAt pre (conflictKey r) with _ | t <;>
    simp [cmLookup, List.find?]

/-- C3. The TTL check of the current `checkRecord` is
`ttl, ok := record.TTL.Uint32(); if ok && MaxTTL < ttl { Error }`: a TTL
of 2147483648 is an Error and 2147483647 is not, as the claim says, but
a negative TTL (a valid JSON integer, stored as the SINT string `"-1"`)
fails the `uint32` parse, so `ok` is false and *no* TTL Error is
reported — contradicting the claim, the spec's "non-negative integer"
rule, the comment above the check ("a valid json int can be out of
bounds in DNS"), and the earlier revision's explicit
`record.TTL < 0 || max31b < record.TTL` test.  A 2^32-overflowing TTL
such as 4294967296 is likewise silently accepted. -/
theorem c3_ttl_bounds :
    jsonUint32 "-1" = none ∧
    (checkRecord {} false { type := "A", groupId := "g", host := "h",
                            pointsTo := "1.2.3.4", ttl := "-1" } [] []).1
      = CheckOK ∧
    (checkRecord {} false { type := "A", groupId := "g", host := "h",
                            pointsTo := "1.2.3.4", ttl := "2147483648" } [] []).1
      = CheckError ∧
    (checkRecord {} false { type := "A", groupId := "g", host := "h",
                            pointsTo := "1.2.3.4", ttl := "2147483647" } [] []).1
      = CheckOK ∧
    (checkRecord {} false { type := "A", groupId := "g", host := "h",
                            pointsTo := "1.2.3.4", ttl := "4294967296" } [] []).1
      = CheckOK := by
  decide

/-- C5. `checkHostForDeniedChars` flags the host `ba!d` (not `*`/`@`,
contains `!`), and `checkRecord` logs an Error for it — but, unlike
every sibling check, the source never ors `CheckError` into `exitVal`
there, so for an otherwise clean record the aggregated severity
`checkRecord` returns is `CheckOK`, not at least Error as the claim
requires. -/
theorem c5_denied_chars_not_in_severity :
    checkHostForDeniedChars "ba!d" = true ∧
    ¬ ("ba!d" = "*" ∨ "ba!d" = "@") ∧
    (checkRecord {} false { type := "A", groupId := "g", host := "ba!d",
                            pointsTo := "1.2.3.4", ttl := "300" } [] []).1
      = CheckOK ∧
    ¬ hasSev (checkRecord {} false { type := "A", groupId := "g", host := "ba!d",
                                     pointsTo := "1.2.3.4", ttl := "300" } [] []).1
      CheckError := by
  decide

/-! ## Template model and checkTemplate (lib.go, current snapshot:
`Version uint`) -/

structure Template where
  providerId : String := ""
  providerName : String := ""
  serviceId : String := ""
  serviceName : String := ""
  version : Nat := 0
  logo : String := ""
  description : String := ""
  variableDescription : String := ""
  shared : Bool := false
  syncBlock : Bool := false
  sharedProviderName : Bool := false
  sharedServiceName : Bool := false
  syncPubKeyDomain : String := ""
  syncRedirectDomain : String := ""
  multiInstance : Bool := false
  warnPhishing : Bool := false
  hostRequired : Bool := false
  records : List Record := []

/-- External collaborators of `checkTemplate`, modelled at their
interfaces (spec: out of scope): the go-playground struct validator
(collapsed to whether any field error is reported), the logo HTTP probe
(non-nil error or non-200 status), and the go-net FQDN/domain test used
inside `checkFQDN`. -/
structure ExtCollab where
  templateValidatorBad : Bool := false
  recordValidatorBad : Record → Bool := fun _ => false
  logoUnreachable : String → Bool := fun _ => false
  fqdnBad : String → Bool := fun _ => false

def validChars : String := "-.0123456789_abcdefghijklmnopqrstuvwxyz"

/-- `checkInvalidChars` (lib.go): some character whose lower-cased form
is not in `validChars` (`strings.Contains` with a one-character needle
is character membership). -/
def checkInvalidChars (s : String) : Bool :=
  s.data.any (fun c => ¬ validChars.data.contains (Char.toLower c))

/-- `filepath.Base`. -/
def baseName (p : String) : String :=
  if p = "" then "."
  else
    match ((goSplit p '/').filter (fun s => s ≠ "")).getLast? with
    | some b => b
    | none => "/"

/-- `isUnreachable` (lib.go): skipped without `-logos` or for an empty
URL; otherwise the HTTP outcome is the external collaborator's. -/
def isUnreachable (conf : Conf) (ext : ExtCollab) (logoURL : String) : Bool :=
  if ¬ conf.checkLogos ∨ logoURL = "" then false
  else ext.logoUnreachable logoURL

/-- `checkFQDN` (lib.go): an empty value never errors; otherwise go-net
(an external library, modelled at its interface) decides. -/
def checkFQDN (ext : ExtCollab) (fqdn : String) : Bool :=
  if fqdn = "" then false else ext.fqdnBad fqdn

/-- Go `strings.TrimSpace`, at the Latin-1 whitespace level. -/
def trimSpaceGo (s : String) : String :=
  String.mk ((s.data.dropWhile isGoSpace).reverse.dropWhile isGoSpace |>.reverse)

/-- `checkSyncRedirectDomain` (lib.go): split on `,`, trim each entry,
error iff some entry fails `checkFQDN` (the source returns the first
error; only nil-ness reaches the caller). -/
def checkSyncRedirectDomain (ext : ExtCollab) (srd : String) : Bool :=
  ((goSplit srd ',').map (fun d => checkFQDN ext (trimSpaceGo d))).any id

/-- `internal.StripSpaces` (utils.go), at the Latin-1 whitespace level. -/
def StripSpaces (s : String) : String :=
  String.mk (s.data.filter (fun c => ¬ isGoSpace c))

/-- `cloudflareTemplateChecks` (lib.go). -/
def cloudflareTemplateChecks (t : Template) : CheckSeverity :=
  (if t.syncBlock then CheckError else CheckOK) |||
  (if t.syncPubKeyDomain = "" then CheckError else CheckOK) |||
  (if t.sharedServiceName then CheckInfo else CheckOK) |||
  (if t.syncRedirectDomain ≠ "" then CheckInfo else CheckOK) |||
  (if t.multiInstance then CheckInfo else CheckOK) |||
  (if t.warnPhishing then CheckInfo else CheckOK) |||
  (if t.hostRequired then CheckInfo else CheckOK)

/-- The records loop of `checkTemplate`: or-aggregate `checkRecord` over
the records, threading the conflict map and duplicate set, and write
each (possibly rewritten) record back. -/
def checkRecordsGo (conf : Conf) (hostRequired : Bool) :
    List Record → ConflictMap → List Record → CheckSeverity × List Record
  | [], _, _ => (CheckOK, [])
  | r :: rs, cm, dups =>
    let res := checkRecord conf hostRequired r cm dups
    let rest := checkRecordsGo conf hostRequired rs res.2.1 res.2.2.1
    (res.1 ||| rest.1, res.2.2.2 :: rest.2)

/-- `checkTemplate` (lib.go, current snapshot), as a pure function of
the configuration, the external collaborators, the run-scoped collision
set, and the decoded template.  Returns the aggregated severity, the
final in-memory template (the value the pretty-print/inplace branch
serializes: deprecated-flag normalization, optional version increment,
whitespace-stripped `syncRedirectDomain`, per-record TTL backfill), and
the grown collision set.  The byte-level marshal/indent/write steps and
their failure severities are outside the model (spec: out of scope). -/
def checkTemplate (conf : Conf) (ext : ExtCollab) (collision : List String)
    (t0 : Template) : CheckSeverity × Template × List String :=
  let sevIds :=
    (if checkInvalidChars t0.providerId then CheckError else CheckOK) |||
    (if checkInvalidChars t0.serviceId then CheckError else CheckOK)
  let sevFile :=
    if conf.fileName ≠ "/dev/stdin" ∧
        baseName conf.fileName ≠
          goToLower t0.providerId ++ "." ++ goToLower t0.serviceId ++ ".json"
    then CheckError else CheckOK
  let sevColl :=
    if collision.contains (t0.providerId ++ "/" ++ t0.serviceId) then CheckError
    else CheckOK
  let collision2 := (t0.providerId ++ "/" ++ t0.serviceId) :: collision
  let sevValidate :=
    (if ext.templateValidatorBad then CheckWarn else CheckOK) |||
    (t0.records.foldl
      (fun acc r => acc ||| (if ext.recordValidatorBad r then CheckWarn else CheckOK))
      CheckOK)
  let sevVersion := if t0.version = 0 then CheckInfo else CheckOK
  let sevShared :=
    if t0.shared ∧ ¬ t0.sharedProviderName then CheckError else CheckOK
  let t1 :=
    if t0.shared ∧ ¬ t0.sharedProviderName then
      { t0 with shared := true, sharedProviderName := true }
    else t0
  let sevShared2 :=
    if ¬ t1.shared ∧ t1.sharedProviderName then CheckInfo else CheckOK
  let t2 :=
    if ¬ t1.shared ∧ t1.sharedProviderName then
      { t1 with shared := true, sharedProviderName := true }
    else t1
  let sevProvName := if isVariable t2.providerName then CheckError else CheckOK
  let sevServName := if isVariable t2.serviceName then CheckError else CheckOK
  let sevLogo := if isUnreachable conf ext t2.logo then CheckWarn else CheckOK
  let sevPubKey := if checkFQDN ext t2.syncPubKeyDomain then CheckWarn else CheckOK
  let sevRedirect :=
    if checkSyncRedirectDomain ext t2.syncRedirectDomain then CheckWarn
    else CheckOK
  let sevPhishing :=
    if t2.warnPhishing ∧ t2.syncPubKeyDomain ≠ "" then CheckInfo else CheckOK
  let sevSyncBlock :=
    if ¬ t2.syncBlock ∧ t2.syncPubKeyDomain = "" then CheckInfo else CheckOK
  let sevCF := if conf.cloudflare then cloudflareTemplateChecks t2 else CheckOK
  let sevZero := if t2.records.length = 0 then CheckError else CheckOK
  let recRes := checkRecordsGo conf t2.hostRequired t2.records [] []
  let t3 := { t2 with records := recRes.2 }
  let t4 :=
    if conf.prettyPrint ∨ conf.inplace then
      { t3 with
        version := (if conf.increment then t3.version + 1 else t3.version),
        syncRedirectDomain := StripSpaces t3.syncRedirectDomain }
    else t3
  (sevIds ||| sevFile ||| sevColl ||| sevValidate ||| sevVersion ||| sevShared |||
     sevShared2 ||| sevProvName ||| sevServName ||| sevLogo ||| sevPubKey |||
     sevRedirect ||| sevPhishing ||| sevSyncBlock ||| sevCF ||| sevZero |||
     recRes.1,
   t4, collision2)

/-- C6. A template with `shared = true` and `sharedProviderName = false`
yields an Error in `checkTemplate`'s aggregated severity, and the
in-memory template that any subsequent canonical re-serialization reads
has both flags normalized to `true`. -/
theorem c6_shared_normalization (conf : Conf) (ext : ExtCollab)
    (coll : List String) (t : Template)
    (h1 : t.shared = true) (h2 : t.sharedProviderName = false) :
    hasSev (checkTemplate conf ext coll t).1 CheckError ∧
    (checkTemplate conf ext coll t).2.1.shared = true ∧
    (checkTemplate conf ext coll t).2.1.sharedProviderName = true := by
  have hcond : (t.shared = true ∧ ¬ t.sharedProviderName = true) := by
    simp [h1, h2]
  refine ⟨?_, ?_, ?_⟩
  · simp only [checkTemplate]
    apply hasSev_or_left
    apply hasSev_or_left
    apply hasSev_or_left
    apply hasSev_or_left
    apply hasSev_or_left
    apply hasSev_or_left
    apply hasSev_or_left
    apply hasSev_or_left
    apply hasSev_or_left
    apply hasSev_or_left
    apply hasSev_or_left
    apply hasSev_or_right
    rw [if_pos hcond]
    decide
  · simp [checkTemplate, h1, h2]
    split <;> rfl
  · simp [checkTemplate, h1, h2]
    split <;> rfl

/-- C6 witness: the statement applied at a minimal concrete template
with `shared = true`, `sharedProviderName = false`. -/
theorem c6_shared_normalization_witness :
    hasSev (checkTemplate {} {} [] { shared := true }).1 CheckError ∧
    (checkTemplate {} {} [] { shared := true }).2.1.shared = true ∧
    (checkTemplate {} {} [] { shared := true }).2.1.sharedProviderName = true :=
  c6_shared_normalization {} {} [] { shared := true } rfl rfl
